import Mathlib

/-!
Verification of the d2lvalence auth module (Brightspace/valence-sdk-python).

The development shallowly embeds `src/d2lvalence/auth.py`: the `D2LSigner`
digest pipeline (UTF-8 encoding, HMAC-SHA256, URL-safe base64, padding strip),
the relevant subset of `urllib.parse` (quote/unquote, parse_qs, urlencode,
urlsplit, urlunsplit) with the semantics of CPython 3, and the
`D2LAppContext` / `D2LUserContext` classes with their constructors, the
request-signing hook `__call__`, the timestamp computation, result
interpretation, and context-property serialization.  Bytes are `Nat` values
below 256, 32-bit words are `Nat` values reduced modulo `2 ^ 32`, wall-clock
time is an explicit rational parameter, and Python exceptions are modelled
with an `Except` error type.
-/

namespace D2LValence

/-- Python exceptions raised by the auth module, by class. -/
inductive PyError where
  | valueError (msg : String)
  | typeError (msg : String)
  | keyError (key : String)
  | indexError
deriving DecidableEq, Repr

/-- The value passed as the `signer` argument.  `D2LSigner` is stateless, so a
conforming instance carries no data; any other Python value (including
`None`) fails the `isinstance` check. -/
inductive SignerVal where
  | d2lSigner
  | nonSigner
deriving DecidableEq, Repr

/-- `isinstance(signer, D2LSigner)`. -/
def isD2LSigner : SignerVal → Bool
  | SignerVal.d2lSigner => true
  | SignerVal.nonSigner => false

/-! ## Bytes, 32-bit words and SHA-256

Embedding of `hashlib.sha256` over byte lists (each byte a `Nat` below 256),
following FIPS 180-4. 32-bit words are `Nat` values kept below `2 ^ 32` by
explicit masking. -/

/-- 32-bit word mask. -/
def w32 : Nat := 4294967296

/-- Rotate a 32-bit word right by `n` bits. -/
def rotr32 (n x : Nat) : Nat :=
  ((x >>> n) ||| (x <<< (32 - n))) % w32

/-- Bitwise complement of a 32-bit word. -/
def not32 (x : Nat) : Nat := x ^^^ (w32 - 1)

/-- SHA-256 round constants (FIPS 180-4 section 4.2.2, in decimal). -/
def shaK : List Nat :=
  [1116352408, 1899447441, 3049323471, 3921009573, 961987163,
   1508970993, 2453635748, 2870763221, 3624381080, 310598401,
   607225278, 1426881987, 1925078388, 2162078206, 2614888103,
   3248222580, 3835390401, 4022224774, 264347078, 604807628,
   770255983, 1249150122, 1555081692, 1996064986, 2554220882,
   2821834349, 2952996808, 3210313671, 3336571891, 3584528711,
   113926993, 338241895, 666307205, 773529912, 1294757372,
   1396182291, 1695183700, 1986661051, 2177026350, 2456956037,
   2730485921, 2820302411, 3259730800, 3345764771, 3516065817,
   3600352804, 4094571909, 275423344, 430227734, 506948616,
   659060556, 883997877, 958139571, 1322822218, 1537002063,
   1747873779, 1955562222, 2024104815, 2227730452, 2361852424,
   2428436474, 2756734187, 3204031479, 3329325298]

/-- SHA-256 initial hash value (FIPS 180-4 section 5.3.3, in decimal). -/
def shaH0 : List Nat :=
  [1779033703, 3144134277, 1013904242, 2773480762,
   1359893119, 2600822924, 528734635, 1541459225]

/-- Big-endian byte rendering of a value into `n` bytes. -/
def beBytes : Nat → Nat → List Nat
  | 0, _ => []
  | n + 1, v => beBytes n (v / 256) ++ [v % 256]

/-- Parse a byte list into big-endian 32-bit words (groups of four bytes). -/
def toWords : List Nat → List Nat
  | b0 :: b1 :: b2 :: b3 :: rest =>
      (b0 * 16777216 + b1 * 65536 + b2 * 256 + b3) :: toWords rest
  | _ => []

/-- The next message-schedule word from a partial schedule. -/
def nextWord (ws : List Nat) : Nat :=
  let n := ws.length
  let x15 := ws.getD (n - 15) 0
  let x2 := ws.getD (n - 2) 0
  let s0 := rotr32 7 x15 ^^^ rotr32 18 x15 ^^^ (x15 >>> 3)
  let s1 := rotr32 17 x2 ^^^ rotr32 19 x2 ^^^ (x2 >>> 10)
  (ws.getD (n - 16) 0 + s0 + ws.getD (n - 7) 0 + s1) % w32

/-- Extend a 16-word schedule by the given number of extra words. -/
def extendSchedule : Nat → List Nat → List Nat
  | 0, ws => ws
  | n + 1, ws => extendSchedule n (ws ++ [nextWord ws])

/-- One SHA-256 compression round applied to the working variables. -/
def shaRound (st : Nat × Nat × Nat × Nat × Nat × Nat × Nat × Nat)
    (kw : Nat × Nat) : Nat × Nat × Nat × Nat × Nat × Nat × Nat × Nat :=
  let (a, b, c, d, e, f, g, h) := st
  let (k, w) := kw
  let s1 := rotr32 6 e ^^^ rotr32 11 e ^^^ rotr32 25 e
  let ch := (e &&& f) ^^^ (not32 e &&& g)
  let t1 := (h + s1 + ch + k + w) % w32
  let s0 := rotr32 2 a ^^^ rotr32 13 a ^^^ rotr32 22 a
  let maj := (a &&& b) ^^^ (a &&& c) ^^^ (b &&& c)
  let t2 := (s0 + maj) % w32
  ((t1 + t2) % w32, a, b, c, (d + t1) % w32, e, f, g)

/-- Compress one 64-byte block into the running hash state. -/
def shaCompress (st : List Nat) (block : List Nat) : List Nat :=
  let ws := extendSchedule 48 (toWords block)
  let h0 := st.getD 0 0
  let h1 := st.getD 1 0
  let h2 := st.getD 2 0
  let h3 := st.getD 3 0
  let h4 := st.getD 4 0
  let h5 := st.getD 5 0
  let h6 := st.getD 6 0
  let h7 := st.getD 7 0
  let fin := (shaK.zip ws).foldl shaRound (h0, h1, h2, h3, h4, h5, h6, h7)
  match fin with
  | (a, b, c, d, e, f, g, h) =>
      [(h0 + a) % w32, (h1 + b) % w32, (h2 + c) % w32, (h3 + d) % w32,
       (h4 + e) % w32, (h5 + f) % w32, (h6 + g) % w32, (h7 + h) % w32]

/-- Fold the compression function over successive 64-byte blocks.  The fuel
argument bounds the number of blocks; callers pass the padded length, which
is always enough since every step consumes 64 bytes. -/
def shaBlocks : Nat → List Nat → List Nat → List Nat
  | _, st, [] => st
  | 0, st, _ => st
  | fuel + 1, st, l => shaBlocks fuel (shaCompress st (l.take 64)) (l.drop 64)

/-- SHA-256 padding: append `0x80`, zero bytes to 56 mod 64, then the
big-endian 64-bit bit length. -/
def shaPad (msg : List Nat) : List Nat :=
  let l := msg.length
  let zeros := (119 - l % 64) % 64
  msg ++ [0x80] ++ List.replicate zeros 0 ++ beBytes 8 (l * 8)

/-- `hashlib.sha256(msg).digest()`: the 32-byte SHA-256 digest. -/
def sha256 (msg : List Nat) : List Nat :=
  let padded := shaPad msg
  (shaBlocks padded.length shaH0 padded).foldr (fun wd acc => beBytes 4 wd ++ acc) []

/-! ## HMAC (RFC 2104), as `hmac.new(key, msg, hashlib.sha256)` -/

/-- XOR every byte of a list with a constant. -/
def xorBytes (p : Nat) (l : List Nat) : List Nat := l.map (fun b => b ^^^ p)

/-- `hmac.new(key, msg, hashlib.sha256).digest()`. -/
def hmacSha256 (key msg : List Nat) : List Nat :=
  let k0 := if key.length > 64 then sha256 key else key
  let k := k0 ++ List.replicate (64 - k0.length) 0
  sha256 (xorBytes 0x5c k ++ sha256 (xorBytes 0x36 k ++ msg))

/-! ## UTF-8 encoding, as `str.encode` -/

/-- UTF-8 byte sequence of a single code point. -/
def utf8Char (c : Char) : List Nat :=
  let n := c.toNat
  if n < 0x80 then [n]
  else if n < 0x800 then [0xc0 + n / 64, 0x80 + n % 64]
  else if n < 0x10000 then
    [0xe0 + n / 4096, 0x80 + n / 64 % 64, 0x80 + n % 64]
  else
    [0xf0 + n / 262144, 0x80 + n / 4096 % 64, 0x80 + n / 64 % 64, 0x80 + n % 64]

/-- `s.encode(utf-8)` over a character list. -/
def utf8Encode (cs : List Char) : List Nat :=
  (cs.map utf8Char).foldr (· ++ ·) []

/-! ## URL-safe base64, as `base64.urlsafe_b64encode` -/

/-- The URL-safe base64 alphabet (`-` and `_` replacing `+` and `/`). -/
def b64UrlAlphabet : List Char :=
  ['A', 'B', 'C', 'D', 'E', 'F', 'G', 'H', 'I', 'J', 'K', 'L', 'M',
   'N', 'O', 'P', 'Q', 'R', 'S', 'T', 'U', 'V', 'W', 'X', 'Y', 'Z',
   'a', 'b', 'c', 'd', 'e', 'f', 'g', 'h', 'i', 'j', 'k', 'l', 'm',
   'n', 'o', 'p', 'q', 'r', 's', 't', 'u', 'v', 'w', 'x', 'y', 'z',
   '0', '1', '2', '3', '4', '5', '6', '7', '8', '9', '-', '_']

/-- The alphabet character for a 6-bit group. -/
def b64Char (n : Nat) : Char := b64UrlAlphabet.getD (n % 64) 'A'

/-- `base64.urlsafe_b64encode`: three input bytes become four alphabet
characters; a final group of one or two bytes is padded with `=`. -/
def b64UrlEncode : List Nat → List Char
  | [] => []
  | [b1] => [b64Char (b1 / 4), b64Char (b1 % 4 * 16), '=', '=']
  | [b1, b2] =>
      [b64Char (b1 / 4), b64Char (b1 % 4 * 16 + b2 / 16), b64Char (b2 % 16 * 4), '=']
  | b1 :: b2 :: b3 :: rest =>
      b64Char (b1 / 4) :: b64Char (b1 % 4 * 16 + b2 / 16) ::
      b64Char (b2 % 16 * 4 + b3 / 64) :: b64Char (b3 % 64) :: b64UrlEncode rest

/-! ## Python string helpers -/

/-- The whitespace characters stripped by `str.strip()` that can occur in
ASCII output. -/
def isPySpace (c : Char) : Bool :=
  c = ' ' || c = '\t' || c = '\n' || c = '\r' || c = '\x0b' || c = '\x0c'

/-- `str.strip()`: drop leading and trailing whitespace. -/
def pyStrip (cs : List Char) : List Char :=
  ((cs.dropWhile isPySpace).reverse.dropWhile isPySpace).reverse

/-- `str.replace(old, new)` for a single-character `old` and empty `new`:
removes every occurrence. -/
def removeChar (c : Char) (cs : List Char) : List Char :=
  cs.filter (fun x => x ≠ c)

/-! ## The signer (`D2LSigner`) -/

/-- `D2LSigner.get_hash`: UTF-8 encode key and base string, HMAC-SHA256,
URL-safe base64, then remove `=` characters and strip whitespace. -/
def get_hash (key_string base_string : String) : String :=
  let k := utf8Encode key_string.data
  let b := utf8Encode base_string.data
  let d := b64UrlEncode (hmacSha256 k b)
  String.mk (pyStrip (removeChar '=' d))

/-- `D2LSigner.check_hash`: recompute the digest and compare for equality. -/
def check_hash (hash_string key_string base_string : String) : Bool :=
  get_hash key_string base_string == hash_string

/-! ## urllib.parse subset

Embedding of the CPython 3 functions the auth module uses: `quote_plus`
(via `urlencode`), `unquote` / `unquote_plus`, `parse_qs` (default
`keep_blank_values=False`), `urlencode`, `urlsplit` and `urlunsplit`. -/

/-- Split a character list at the first occurrence of `sep`, like
`str.split(sep, 1)` when the separator occurs. -/
def splitFirst (sep : Char) : List Char → Option (List Char × List Char)
  | [] => none
  | c :: rest =>
      if c = sep then some ([], rest)
      else (splitFirst sep rest).map (fun p => (c :: p.1, p.2))

/-- Split a character list on every occurrence of `sep`, like `str.split(sep)`
(on a non-empty separator). -/
def splitAll (sep : Char) (cs : List Char) : List (List Char) :=
  cs.foldr
    (fun c acc =>
      match acc with
      | [] => [[c]]
      | g :: gs => if c = sep then [] :: g :: gs else (c :: g) :: gs)
    [[]]

/-- ASCII hexadecimal digit test. -/
def isHexDigitC (c : Char) : Bool :=
  c.isDigit || ('A' ≤ c && c ≤ 'F') || ('a' ≤ c && c ≤ 'f')

/-- Value of an ASCII hexadecimal digit. -/
def hexVal (c : Char) : Nat :=
  if c.isDigit then c.toNat - 48
  else if 'A' ≤ c && c ≤ 'F' then c.toNat - 55
  else c.toNat - 87

/-- Uppercase hexadecimal digit for a value below 16. -/
def hexUpper (n : Nat) : Char :=
  ['0', '1', '2', '3', '4', '5', '6', '7', '8', '9',
   'A', 'B', 'C', 'D', 'E', 'F'].getD (n % 16) '0'

/-- Characters never percent-encoded by `urllib.parse.quote`. -/
def isUrlAlwaysSafe (c : Char) : Bool :=
  c.isAlpha || c.isDigit || c = '_' || c = '.' || c = '-' || c = '~'

/-- Percent-encoding of one byte, uppercase hexadecimal. -/
def pctByte (b : Nat) : List Char :=
  ['%', hexUpper (b / 16 % 16), hexUpper (b % 16)]

/-- `urllib.parse.quote_plus` with empty `safe`, as used by `urlencode`:
safe characters pass through, a space becomes `+`, every other character is
percent-encoded byte-by-byte from its UTF-8 encoding. -/
def quotePlus (cs : List Char) : List Char :=
  cs.foldr
    (fun c acc =>
      (if isUrlAlwaysSafe c then [c]
       else if c = ' ' then ['+']
       else (utf8Char c).foldr (fun b bs => pctByte b ++ bs) []) ++ acc)
    []

/-- The Unicode replacement character emitted for undecodable bytes. -/
def replChar : Char := Char.ofNat 0xfffd

/-- Continuation-byte test for UTF-8 decoding. -/
def isContByte (b : Nat) : Bool := 0x80 ≤ b && b < 0xc0

/-- Parse one UTF-8 sequence starting with byte `b`; returns the code point
and the remaining bytes, or `none` if no valid sequence starts here
(overlong forms and surrogate code points are rejected, as CPython does). -/
def parseUtf8Seq (b : Nat) (rest : List Nat) : Option (Nat × List Nat) :=
  if b < 0x80 then some (b, rest)
  else if b < 0xc2 then none
  else if b < 0xe0 then
    match rest with
    | b2 :: r => if isContByte b2 then some ((b - 0xc0) * 64 + (b2 - 0x80), r) else none
    | [] => none
  else if b < 0xf0 then
    match rest with
    | b2 :: b3 :: r =>
        if isContByte b2 && isContByte b3 &&
           (b ≠ 0xe0 || b2 ≥ 0xa0) && (b ≠ 0xed || b2 < 0xa0) then
          some ((b - 0xe0) * 4096 + (b2 - 0x80) * 64 + (b3 - 0x80), r)
        else none
    | _ => none
  else if b ≤ 0xf4 then
    match rest with
    | b2 :: b3 :: b4 :: r =>
        if isContByte b2 && isContByte b3 && isContByte b4 &&
           (b ≠ 0xf0 || b2 ≥ 0x90) && (b ≠ 0xf4 || b2 < 0x90) then
          some ((b - 0xf0) * 262144 + (b2 - 0x80) * 4096 +
                (b3 - 0x80) * 64 + (b4 - 0x80), r)
        else none
    | _ => none
  else none

/-- UTF-8 decoding with replacement of invalid bytes (`errors=replace`).
The fuel argument bounds the number of steps; each step consumes at least
one byte, so the byte count suffices. -/
def utf8DecodeGo : Nat → List Nat → List Char
  | 0, _ => []
  | _, [] => []
  | fuel + 1, b :: rest =>
      match parseUtf8Seq b rest with
      | some (cp, r) => Char.ofNat cp :: utf8DecodeGo fuel r
      | none => replChar :: utf8DecodeGo fuel rest

/-- Decode a byte list as UTF-8 with replacement of invalid bytes. -/
def utf8DecodeBytes (l : List Nat) : List Char := utf8DecodeGo l.length l

/-- Collect the maximal leading run of `%XX` groups as bytes, returning the
bytes and the remaining characters. -/
def percentRun : List Char → List Nat × List Char
  | '%' :: h1 :: h2 :: rest =>
      if isHexDigitC h1 && isHexDigitC h2 then
        match percentRun rest with
        | (bs, r) => ((hexVal h1 * 16 + hexVal h2) :: bs, r)
      else ([], '%' :: h1 :: h2 :: rest)
  | cs => ([], cs)

/-- Loop for `urllib.parse.unquote`: byte runs from consecutive `%XX` groups
are UTF-8 decoded, other characters pass through.  Fuel bounds the steps;
each step consumes at least one character. -/
def unquoteGo : Nat → List Char → List Char
  | 0, _ => []
  | _, [] => []
  | fuel + 1, cs =>
      match percentRun cs with
      | (b :: bs, r) => utf8DecodeBytes (b :: bs) ++ unquoteGo fuel r
      | ([], []) => []
      | ([], c :: rest) => c :: unquoteGo fuel rest

/-- `urllib.parse.unquote` over a character list. -/
def unquoteList (cs : List Char) : List Char := unquoteGo cs.length cs

/-- `urllib.parse.unquote_plus` over a character list: `+` becomes a space,
then percent-decoding. -/
def unquotePlusList (cs : List Char) : List Char :=
  unquoteList (cs.map (fun c => if c = '+' then ' ' else c))

/-- `urllib.parse.unquote_plus` over strings. -/
def unquote_plus (s : String) : String := String.mk (unquotePlusList s.data)

/-- One pair of `parse_qsl`: skip an empty pair, skip a pair without `=`,
skip a blank value (`keep_blank_values` is false), otherwise `unquote_plus`
the name and the value. -/
def qslStep (pair : List Char) (acc : List (String × String)) :
    List (String × String) :=
  if pair = [] then acc
  else
    match splitFirst '=' pair with
    | none => acc
    | some (n, v) =>
        if v = [] then acc
        else (String.mk (unquotePlusList n), String.mk (unquotePlusList v)) :: acc

/-- `urllib.parse.parse_qsl` with default arguments: split on `&` and process
each pair. -/
def parse_qsl (query : List Char) : List (String × String) :=
  (splitAll '&' query).foldr qslStep []

/-- Append a value under a key, preserving first-occurrence key order, as
`parse_qs` groups its pairs. -/
def qsInsert : List (String × List String) → String → String → List (String × List String)
  | [], k, v => [(k, [v])]
  | (k2, vs) :: rest, k, v =>
      if k2 = k then (k2, vs ++ [v]) :: rest else (k2, vs) :: qsInsert rest k v

/-- `urllib.parse.parse_qs` with default arguments: parsed pairs grouped into
an insertion-ordered dictionary of value lists. -/
def parse_qs (query : List Char) : List (String × List String) :=
  (parse_qsl query).foldl (fun d kv => qsInsert d kv.1 kv.2) []

/-- Set a key to a value list in place, appending when absent: one step of
Python dictionary `update`. -/
def dictSet : List (String × List String) → String → List String → List (String × List String)
  | [], k, v => [(k, v)]
  | (k2, vs) :: rest, k, v =>
      if k2 = k then (k2, v) :: rest else (k2, vs) :: dictSet rest k v

/-- Python dictionary `update`: existing keys are overwritten in place, new
keys are appended in the order of the second dictionary. -/
def dictUpdate (d p : List (String × List String)) : List (String × List String) :=
  p.foldl (fun acc kv => dictSet acc kv.1 kv.2) d

/-- Dictionary key lookup returning the value list when present. -/
def dictFind (d : List (String × List String)) (k : String) : Option (List String) :=
  (d.find? (fun kv => kv.1 == k)).map (fun kv => kv.2)

/-- One `k=v` component of an encoded query string. -/
def encodePair (k v : String) : List Char :=
  quotePlus k.data ++ '=' :: quotePlus v.data

/-- Join encoded components with `&`. -/
def joinAmp : List (List Char) → List Char
  | [] => []
  | [x] => x
  | x :: y :: rest => x ++ '&' :: joinAmp (y :: rest)

/-- `urllib.parse.urlencode(d, doseq=True)` on a dictionary of string lists:
one `k=v` component per value, joined with `&`. -/
def urlencodeSeq (d : List (String × List String)) : String :=
  String.mk
    (joinAmp (d.foldr (fun kv acc => kv.2.map (fun v => encodePair kv.1 v) ++ acc) []))

/-- `urllib.parse.urlencode(d, doseq=True)` on a dictionary of scalar string
values, as used for the authentication URL parameters. -/
def urlencodeStr (d : List (String × String)) : String :=
  String.mk (joinAmp (d.map (fun kv => encodePair kv.1 kv.2)))

/-- Result of `urllib.parse.urlsplit`. -/
structure SplitResult where
  scheme : String
  netloc : String
  path : String
  query : String
  fragment : String
deriving DecidableEq, Repr

/-- Characters allowed in a URL scheme after the first. -/
def isSchemeChar (c : Char) : Bool :=
  c.isAlpha || c.isDigit || c = '+' || c = '-' || c = '.'

/-- ASCII lowercasing of a character list, as `str.lower` on ASCII text. -/
def lowerList (cs : List Char) : List Char := cs.map Char.toLower

/-- `urllib.parse.urlsplit`: extract the scheme (lowercased, when the prefix
before the first `:` is a valid scheme), the network location after `//`,
then the fragment after the first `#` and the query after the first `?`.
As CPython does, leading C0-control and space characters are stripped and
tab, carriage-return and line-feed characters are removed first. -/
def urlsplit (url : String) : SplitResult :=
  let cs := (url.data.dropWhile (fun c => c.toNat ≤ 0x20)).filter
    (fun c => ¬ (c = '\t' || c = '\r' || c = '\n'))
  let stage1 :=
    match splitFirst ':' cs with
    | some (before, after) =>
        match before with
        | [] => ("", cs)
        | c0 :: _ =>
            if c0.isAlpha && before.all isSchemeChar then
              (String.mk (lowerList before), after)
            else ("", cs)
    | none => ("", cs)
  let schemeStr := stage1.1
  let rest1 := stage1.2
  let stage2 :=
    match rest1 with
    | '/' :: '/' :: r =>
        (String.mk (r.takeWhile (fun c => ¬ (c = '/' || c = '?' || c = '#'))),
         r.dropWhile (fun c => ¬ (c = '/' || c = '?' || c = '#')))
    | _ => ("", rest1)
  let netlocStr := stage2.1
  let rest2 := stage2.2
  let stage3 :=
    match splitFirst '#' rest2 with
    | some (a, b) => (a, String.mk b)
    | none => (rest2, "")
  let rest3 := stage3.1
  let fragmentStr := stage3.2
  let stage4 :=
    match splitFirst '?' rest3 with
    | some (a, b) => (String.mk a, String.mk b)
    | none => (String.mk rest3, "")
  { scheme := schemeStr, netloc := netlocStr, path := stage4.1,
    query := stage4.2, fragment := fragmentStr }

/-- Schemes that use a network location, `urllib.parse.uses_netloc`. -/
def usesNetloc : List String :=
  ["", "ftp", "http", "gopher", "nntp", "telnet", "imap", "wais", "file",
   "mms", "https", "shttp", "snews", "prospero", "rtsp", "rtsps", "rtspu",
   "rsync", "svn", "svn+ssh", "sftp", "nfs", "git", "git+ssh", "ws", "wss"]

/-- `urllib.parse.urlunsplit`: reassemble a URL from its five parts.  The
`//` authority marker is emitted when a netloc is present, or when the
scheme is a known netloc-using scheme and the path does not already begin
with `//`. -/
def urlunsplit (scheme netloc path query fragment : String) : String :=
  let url := path
  let url :=
    if netloc ≠ "" ∨ (scheme ≠ "" ∧ scheme ∈ usesNetloc ∧ url.data.take 2 ≠ ['/', '/']) then
      let u := if url ≠ "" ∧ url.data.take 1 ≠ ['/'] then "/" ++ url else url
      "//" ++ netloc ++ u
    else url
  let url := if scheme ≠ "" then scheme ++ ":" ++ url else url
  let url := if query ≠ "" then url ++ "?" ++ query else url
  if fragment ≠ "" then url ++ "#" ++ fragment else url

/-! ## D2LAuthResult -/

namespace D2LAuthResult

/-- `UNKNOWN, OKAY, INVALID_SIG, INVALID_TIMESTAMP, NO_PERMISSION = range(5)`. -/
def UNKNOWN : Nat := 0

/-- Successful result value. -/
def OKAY : Nat := 1

/-- Invalid-signature result value. -/
def INVALID_SIG : Nat := 2

/-- Invalid-timestamp result value. -/
def INVALID_TIMESTAMP : Nat := 3

/-- No-permission result value. -/
def NO_PERMISSION : Nat := 4

end D2LAuthResult

/-! ## D2LAppContext -/

/-- State of a `D2LAppContext` after successful construction. -/
structure D2LAppContext where
  app_id : String
  app_key : String
  signer : SignerVal
deriving DecidableEq, Repr

namespace D2LAppContext

/-- Route for requesting a user token. -/
def AUTH_API : String := "/d2l/auth/api/token"

/-- Query parameter name for the callback URL. -/
def CALLBACK_URL : String := "x_target"

/-- Query parameter name for the user id in the redirect callback. -/
def CALLBACK_USER_ID : String := "x_a"

/-- Query parameter name for the user key in the redirect callback. -/
def CALLBACK_USER_KEY : String := "x_b"

/-- Unsecure scheme. -/
def SCHEME_U : String := "http"

/-- Secure scheme. -/
def SCHEME_S : String := "https"

/-- Query parameter name for the application id in the auth redirect. -/
def APP_ID : String := "x_a"

/-- Query parameter name for the application signature in the auth redirect. -/
def APP_SIG : String := "x_b"

/-- Query parameter name for the connection type. -/
def TYPE : String := "type"

/-- The valid user-context connection types understood by the back-end. -/
def VALID_TYPES : List String := ["mobile"]

end D2LAppContext

/-- `D2LAppContext.__init__`: rejects an empty `app_id` or `app_key` with a
value error, then rejects a signer failing `isinstance(signer, D2LSigner)`
with a type error. -/
def mkD2LAppContext (app_id app_key : String) (signer : SignerVal) :
    Except PyError D2LAppContext :=
  if app_id == "" || app_key == "" then
    Except.error (PyError.valueError "app_id and app_key must have values.")
  else if ¬ isD2LSigner signer then
    Except.error (PyError.typeError "signer must implement D2LSigner")
  else
    Except.ok { app_id := app_id, app_key := app_key, signer := signer }

/-- `D2LAppContext.create_url_for_authentication`: sign the client
application URL with the application key, assemble the `x_a`, `x_b` and
`x_target` query parameters (plus `type` when the connection type is
valid), and build the URL on the token route with a scheme chosen by
`encrypt_request`. -/
def create_url_for_authentication (ac : D2LAppContext) (host client_app_url : String)
    (connect_type : Option String) (encrypt_request : Bool) : String :=
  let sig := get_hash ac.app_key client_app_url
  let parms : List (String × String) :=
    [(D2LAppContext.APP_ID, ac.app_id),
     (D2LAppContext.APP_SIG, sig),
     (D2LAppContext.CALLBACK_URL, client_app_url)]
  let parms :=
    match connect_type with
    | some t => if t ∈ D2LAppContext.VALID_TYPES then parms ++ [(D2LAppContext.TYPE, t)] else parms
    | none => parms
  let scheme := if encrypt_request then D2LAppContext.SCHEME_S else D2LAppContext.SCHEME_U
  urlunsplit scheme host D2LAppContext.AUTH_API (urlencodeStr parms) ""

/-! ## D2LUserContext -/

/-- State of a `D2LUserContext` after successful construction. -/
structure D2LUserContext where
  scheme : String
  host : String
  user_id : String
  user_key : String
  app_id : String
  app_key : String
  encrypt_requests : Bool
  server_skew : Int
  anonymous : Bool
  signer : SignerVal
deriving DecidableEq, Repr

namespace D2LUserContext

/-- Unsecure scheme. -/
def SCHEME_P : String := "http"

/-- Secure scheme. -/
def SCHEME_S : String := "https"

/-- Query parameter name for the application id in signed requests. -/
def APP_ID : String := "x_a"

/-- Query parameter name for the application signature in signed requests. -/
def APP_SIG : String := "x_c"

/-- Query parameter name for the user id in signed requests. -/
def USER_ID : String := "x_b"

/-- Query parameter name for the user signature in signed requests. -/
def USER_SIG : String := "x_d"

/-- Query parameter name for the timestamp in signed requests. -/
def TIME : String := "x_t"

end D2LUserContext

/-- `D2LUserContext.__init__`: a value error when exactly one of `user_id`
and `user_key` is empty, a value error when `host`, `app_id` or `app_key`
is empty, then a type error when the signer fails
`isinstance(signer, D2LSigner)`; otherwise the fields are stored, the
scheme follows `encrypt_requests`, and `anonymous` is set from `user_id`
being empty. -/
def mkD2LUserContext (host user_id user_key app_id app_key : String)
    (encrypt_requests : Bool) (server_skew : Int) (signer : SignerVal) :
    Except PyError D2LUserContext :=
  if (user_id == "") != (user_key == "") then
    Except.error (PyError.valueError
      "Anonymous context must have user_id and user_key empty; or, user context must have both user_id and user_key with values.")
  else if host == "" || app_id == "" || app_key == "" then
    Except.error (PyError.valueError "host, app_id, and app_key must have values.")
  else if ¬ isD2LSigner signer then
    Except.error (PyError.typeError "signer must implement D2LSigner")
  else
    Except.ok
      { scheme := if encrypt_requests then D2LUserContext.SCHEME_S else D2LUserContext.SCHEME_P,
        host := host, user_id := user_id, user_key := user_key,
        app_id := app_id, app_key := app_key,
        encrypt_requests := encrypt_requests, server_skew := server_skew,
        anonymous := user_id == "", signer := signer }

/-- The context-properties dictionary: the exact keys read by
`create_user_context` and produced by `get_context_properties`. -/
structure PropsDict where
  host : String
  user_id : String
  user_key : String
  encrypt_requests : Bool
  server_skew : Int
  anonymous : Bool
deriving DecidableEq, Repr

/-- `D2LUserContext.get_context_properties`: serialize the current state. -/
def get_context_properties (ctx : D2LUserContext) : PropsDict :=
  { host := ctx.host, user_id := ctx.user_id, user_key := ctx.user_key,
    encrypt_requests := ctx.encrypt_requests, server_skew := ctx.server_skew,
    anonymous := ctx.anonymous }

/-- Dictionary key lookup raising `KeyError` when absent, as Python
subscription on the `parse_qs` result. -/
def pyDictGet (d : List (String × List String)) (k : String) :
    Except PyError (List String) :=
  match d.find? (fun kv => kv.1 == k) with
  | some kv => Except.ok kv.2
  | none => Except.error (PyError.keyError k)

/-- List subscription `[0]` raising `IndexError` on an empty list. -/
def pyListHead : List String → Except PyError String
  | v :: _ => Except.ok v
  | [] => Except.error PyError.indexError

/-- `D2LAppContext.create_user_context`: with a non-empty properties
dictionary, rebuild directly from its fields; otherwise require non-empty
`result_uri` and `host` (value error), parse the result URI's query
string, subscript the `x_a` and `x_b` entries (an uncaught `KeyError` when
absent, which parsing also causes for blank values), and construct a fresh
context only when both values are truthy, returning `None` otherwise. -/
def create_user_context (ac : D2LAppContext) (result_uri host : String)
    (encrypt_requests : Bool) (props : Option PropsDict) :
    Except PyError (Option D2LUserContext) :=
  match props with
  | some t =>
      (mkD2LUserContext t.host t.user_id t.user_key ac.app_id ac.app_key
        t.encrypt_requests t.server_skew ac.signer).map some
  | none =>
      if result_uri == "" || host == "" then
        Except.error (PyError.valueError
          "result_uri and host must have values when building new contexts.")
      else do
        let parts := urlsplit result_uri
        let parsed := parse_qs parts.query.data
        let uIDs ← pyDictGet parsed D2LAppContext.CALLBACK_USER_ID
        let uID ← pyListHead uIDs
        let uKeys ← pyDictGet parsed D2LAppContext.CALLBACK_USER_KEY
        let uKey ← pyListHead uKeys
        if !(uID == "") && !(uKey == "") then
          (mkD2LUserContext host uID uKey ac.app_id ac.app_key
            encrypt_requests 0 ac.signer).map some
        else
          pure none

/-- `D2LAppContext.create_anonymous_user_context`: a value error on an empty
host, otherwise a context built from properties with empty credentials and
zero skew. -/
def create_anonymous_user_context (ac : D2LAppContext) (host : String)
    (encrypt_requests : Bool) : Except PyError (Option D2LUserContext) :=
  if host == "" then
    Except.error (PyError.valueError "host must have a value when building a new context.")
  else
    create_user_context ac "" "" false
      (some { host := host, user_id := "", user_key := "",
              encrypt_requests := encrypt_requests, server_skew := 0,
              anonymous := false })

/-! ## Timestamps -/

/-- Python `round` on an exact rational: round half to even. -/
def pyRound (q : ℚ) : Int :=
  let f := Int.floor q
  let frac := q - (f : ℚ)
  if frac < 1 / 2 then f
  else if frac > 1 / 2 then f + 1
  else if f % 2 = 0 then f else f + 1

/-- Decimal digits of a natural number, most significant first; the fuel
argument bounds the digit count. -/
def natDigits : Nat → Nat → List Char
  | 0, _ => []
  | _, 0 => []
  | fuel + 1, n => natDigits fuel (n / 10) ++ [Char.ofNat (48 + n % 10)]

/-- `str` on a natural number. -/
def pyStrNat (n : Nat) : String :=
  if n = 0 then "0" else String.mk (natDigits n n)

/-- `str` on an integer. -/
def pyStrInt : Int → String
  | Int.ofNat n => pyStrNat n
  | Int.negSucc n => "-" ++ pyStrNat (n + 1)

/-- `D2LUserContext._get_time_string`: `str(int(round(time.time() +
server_skew / 1000)))`, with the wall clock passed as an explicit exact
rational `now`. -/
def get_time_string (ctx : D2LUserContext) (now : ℚ) : String :=
  pyStrInt (pyRound (now + (ctx.server_skew : ℚ) / 1000))

/-! ## The request-signing hook (`D2LUserContext.__call__`) -/

/-- The fields of an outgoing request the hook reads and writes. -/
structure PyRequest where
  method : String
  url : String
deriving DecidableEq, Repr

/-- ASCII uppercasing, as `str.upper` on ASCII text. -/
def pyUpper (s : String) : String := String.mk (s.data.map Char.toUpper)

/-- ASCII lowercasing, as `str.lower` on ASCII text. -/
def pyLower (s : String) : String := String.mk (lowerList s.data)

/-- `D2LUserContext.__call__`: split the request URL, parse its query, build
the signature base string from the uppercased method, the lowercased then
percent-decoded path, and the timestamp, compute the application and user
signatures, merge the five token parameters into the query dictionary, and
reassemble the URL. -/
def userCall (ctx : D2LUserContext) (now : ℚ) (r : PyRequest) : PyRequest :=
  let parts := urlsplit r.url
  let qparms := parse_qs parts.query.data
  let method := pyUpper r.method
  let ts := get_time_string ctx now
  let bs_path := unquote_plus (pyLower parts.path)
  let base := method ++ "&" ++ bs_path ++ "&" ++ ts
  let app_sig := get_hash ctx.app_key base
  let usr_sig := if ctx.anonymous then "" else get_hash ctx.user_key base
  let parms : List (String × List String) :=
    [(D2LUserContext.APP_ID, [ctx.app_id]),
     (D2LUserContext.APP_SIG, [app_sig]),
     (D2LUserContext.USER_ID, [ctx.user_id]),
     (D2LUserContext.USER_SIG, [usr_sig]),
     (D2LUserContext.TIME, [ts])]
  let q2 := urlencodeSeq (dictUpdate qparms parms)
  { r with url := urlunsplit parts.scheme parts.netloc parts.path q2 parts.fragment }

/-- `D2LUserContext.interpret_result`: map the HTTP status code to a
`D2LAuthResult` value (the response and logfile arguments are unused by the
code). -/
def interpret_result (result_code : Int) : Nat :=
  if result_code = 200 then D2LAuthResult.OKAY
  else if result_code = 401 then D2LAuthResult.INVALID_SIG
  else if result_code = 403 then D2LAuthResult.NO_PERMISSION
  else D2LAuthResult.UNKNOWN

/-! ## Helper predicates for the theorems -/

/-- Whether a result is a raised `ValueError`. -/
def exceptIsValueError {α : Type} : Except PyError α → Bool
  | Except.error (PyError.valueError _) => true
  | _ => false

/-- Whether a result is a raised `TypeError`. -/
def exceptIsTypeError {α : Type} : Except PyError α → Bool
  | Except.error (PyError.typeError _) => true
  | _ => false

/-- The invariant claimed for successfully constructed user contexts:
`(user_id empty) == (user_key empty) == anonymous`, with `host`, `app_id`
and `app_key` non-empty.  Errors satisfy it vacuously. -/
def userCtxInvariant : Except PyError D2LUserContext → Bool
  | Except.ok ctx =>
      ((ctx.user_id == "") == (ctx.user_key == "")) &&
      (ctx.anonymous == (ctx.user_id == "")) &&
      !(ctx.host == "") && !(ctx.app_id == "") && !(ctx.app_key == "")
  | Except.error _ => true

/-- Whether a result is `None` returned without error. -/
def exceptIsOkNone : Except PyError (Option D2LUserContext) → Bool
  | Except.ok none => true
  | _ => false

/-- The invariant maintained by query-string grouping: every value list in
the parsed dictionary is non-empty and contains no blank string. -/
def dictValsOK (d : List (String × List String)) : Prop :=
  ∀ k vs, (k, vs) ∈ d → vs ≠ [] ∧ ∀ v ∈ vs, v ≠ ""

/-- Modelled from the spec: the timestamp computation the specification
claims, `floor(current_unix_time_seconds + server_skew_ms / 1000)` rendered
as a base-10 integer string. -/
def specFloorTimeString (now : ℚ) (server_skew : Int) : String :=
  pyStrInt (Int.floor (now + (server_skew : ℚ) / 1000))

/-- A valid sample user context used for concrete counterexamples. -/
def sampleCtx : D2LUserContext :=
  { scheme := "http", host := "lms.example.edu", user_id := "someuser",
    user_key := "userkey", app_id := "someapp", app_key := "appkey",
    encrypt_requests := false, server_skew := 0, anonymous := false,
    signer := SignerVal.d2lSigner }

/-- A valid sample app context used for concrete counterexamples. -/
def sampleApp : D2LAppContext :=
  { app_id := "someapp", app_key := "appkey", signer := SignerVal.d2lSigner }

/-! ## Theorems -/

/-- C1: for every key string and message string, verifying a freshly
computed signature succeeds: `check_hash (get_hash key msg) key msg` is
`true`. -/
theorem check_hash_of_get_hash (key msg : String) :
    check_hash (get_hash key msg) key msg = true := by
  simp [check_hash]

/-- C8: `interpret_result` maps 200 to `OKAY`, 401 to `INVALID_SIG`, 403 to
`NO_PERMISSION`, and every other status code to `UNKNOWN`; it never returns
`INVALID_TIMESTAMP` for any input. -/
theorem interpret_result_status_mapping (c : Int)
    (h1 : c ≠ 200) (h2 : c ≠ 401) (h3 : c ≠ 403) :
    interpret_result 200 = D2LAuthResult.OKAY ∧
    interpret_result 401 = D2LAuthResult.INVALID_SIG ∧
    interpret_result 403 = D2LAuthResult.NO_PERMISSION ∧
    interpret_result c = D2LAuthResult.UNKNOWN ∧
    interpret_result 200 ≠ D2LAuthResult.INVALID_TIMESTAMP ∧
    interpret_result 401 ≠ D2LAuthResult.INVALID_TIMESTAMP ∧
    interpret_result 403 ≠ D2LAuthResult.INVALID_TIMESTAMP ∧
    interpret_result c ≠ D2LAuthResult.INVALID_TIMESTAMP := by
  have hc : interpret_result c = D2LAuthResult.UNKNOWN := by
    simp [interpret_result, h1, h2, h3]
  refine ⟨rfl, rfl, rfl, hc, by decide, by decide, by decide, ?_⟩
  rw [hc]
  decide

/-- Concrete instance of the C8 mapping at status code 500. -/
theorem interpret_result_status_mapping_witness :
    interpret_result 200 = D2LAuthResult.OKAY ∧
    interpret_result 401 = D2LAuthResult.INVALID_SIG ∧
    interpret_result 403 = D2LAuthResult.NO_PERMISSION ∧
    interpret_result 500 = D2LAuthResult.UNKNOWN ∧
    interpret_result 200 ≠ D2LAuthResult.INVALID_TIMESTAMP ∧
    interpret_result 401 ≠ D2LAuthResult.INVALID_TIMESTAMP ∧
    interpret_result 403 ≠ D2LAuthResult.INVALID_TIMESTAMP ∧
    interpret_result 500 ≠ D2LAuthResult.INVALID_TIMESTAMP :=
  interpret_result_status_mapping 500 (by decide) (by decide) (by decide)

/-- C3 (amended): the timestamp string is the base-10 rendering of Python
`round` (half to even) of `current + server_skew / 1000`, not of its floor;
the two agree whenever the fractional part is below one half, and the
rounded value never differs from the floor by more than one. -/
theorem get_time_string_rounds_half_even (ctx : D2LUserContext) (now : ℚ) :
    get_time_string ctx now =
      pyStrInt (pyRound (now + (ctx.server_skew : ℚ) / 1000)) ∧
    (∀ q : ℚ, q - (Int.floor q : ℚ) < 1 / 2 → pyRound q = Int.floor q) ∧
    (∀ q : ℚ, Int.floor q ≤ pyRound q ∧ pyRound q ≤ Int.floor q + 1) := by
  refine ⟨rfl, ?_, ?_⟩
  · intro q h
    simp only [pyRound]
    rw [if_pos h]
  · intro q
    simp only [pyRound]
    split_ifs <;> omega

/-- C3 counterexample: at wall-clock time 100.75 with zero skew the code
produces `101` (rounding) while the claimed floor computation gives `100`. -/
theorem get_time_string_differs_from_floor :
    get_time_string sampleCtx (403 / 4) = "101" ∧
    specFloorTimeString (403 / 4) sampleCtx.server_skew = "100" ∧
    get_time_string sampleCtx (403 / 4) ≠
      specFloorTimeString (403 / 4) sampleCtx.server_skew := by
  have hskew : (sampleCtx.server_skew : ℚ) = 0 := by norm_num [sampleCtx]
  have harg : (403 / 4 : ℚ) + (sampleCtx.server_skew : ℚ) / 1000 = 403 / 4 := by
    rw [hskew]; norm_num
  have hfl : Int.floor ((403 : ℚ) / 4) = 100 := by
    rw [Int.floor_eq_iff]
    norm_num
  have hfrac : (403 : ℚ) / 4 - ((100 : ℤ) : ℚ) = 3 / 4 := by norm_num
  have hround : pyRound ((403 : ℚ) / 4) = 101 := by
    simp only [pyRound, hfl, hfrac]
    rw [if_neg (by norm_num), if_pos (by norm_num)]
    norm_num
  have h1 : get_time_string sampleCtx (403 / 4) = "101" := by
    show pyStrInt (pyRound ((403 / 4 : ℚ) + (sampleCtx.server_skew : ℚ) / 1000)) = "101"
    rw [harg, hround]
    decide
  have h2 : specFloorTimeString (403 / 4) sampleCtx.server_skew = "100" := by
    show pyStrInt (Int.floor ((403 / 4 : ℚ) + (sampleCtx.server_skew : ℚ) / 1000)) = "100"
    rw [harg, hfl]
    decide
  refine ⟨h1, h2, ?_⟩
  rw [h1, h2]
  decide

/-! ## Alphabet lemmas for the signer output -/

theorem b64Char_mem (n : Nat) : b64Char n ∈ b64UrlAlphabet := by
  have h : n % 64 < b64UrlAlphabet.length := by
    have h64 : n % 64 < 64 := Nat.mod_lt _ (by decide)
    simpa [b64UrlAlphabet] using h64
  unfold b64Char
  rw [List.getD_eq_getElem b64UrlAlphabet 'A' h]
  exact List.getElem_mem h

theorem b64UrlEncode_mem :
    ∀ (bs : List Nat) (c : Char), c ∈ b64UrlEncode bs →
      c ∈ b64UrlAlphabet ∨ c = '=' := by
  intro bs
  induction bs using b64UrlEncode.induct with
  | case1 =>
      intro c h
      simp [b64UrlEncode] at h
  | case2 b1 =>
      intro c h
      simp only [b64UrlEncode, List.mem_cons, List.not_mem_nil, or_false] at h
      rcases h with h | h | h | h
      · exact Or.inl (h ▸ b64Char_mem _)
      · exact Or.inl (h ▸ b64Char_mem _)
      · exact Or.inr h
      · exact Or.inr h
  | case3 b1 b2 =>
      intro c h
      simp only [b64UrlEncode, List.mem_cons, List.not_mem_nil, or_false] at h
      rcases h with h | h | h | h
      · exact Or.inl (h ▸ b64Char_mem _)
      · exact Or.inl (h ▸ b64Char_mem _)
      · exact Or.inl (h ▸ b64Char_mem _)
      · exact Or.inr h
  | case4 b1 b2 b3 rest ih =>
      intro c h
      simp only [b64UrlEncode, List.mem_cons] at h
      rcases h with h | h | h | h | h
      · exact Or.inl (h ▸ b64Char_mem _)
      · exact Or.inl (h ▸ b64Char_mem _)
      · exact Or.inl (h ▸ b64Char_mem _)
      · exact Or.inl (h ▸ b64Char_mem _)
      · exact ih c h

theorem mem_of_mem_dropWhile {p : Char → Bool} :
    ∀ {l : List Char} {c : Char}, c ∈ l.dropWhile p → c ∈ l := by
  intro l
  induction l with
  | nil => intro c h; simp at h
  | cons x xs ih =>
      intro c h
      rw [List.dropWhile_cons] at h
      by_cases hx : p x = true
      · simp only [hx, if_true] at h
        exact List.mem_cons_of_mem _ (ih h)
      · simp only [hx, if_false] at h
        exact h

theorem mem_of_mem_pyStrip {l : List Char} {c : Char} (h : c ∈ pyStrip l) :
    c ∈ l := by
  unfold pyStrip at h
  rw [List.mem_reverse] at h
  have h2 := mem_of_mem_dropWhile h
  rw [List.mem_reverse] at h2
  exact mem_of_mem_dropWhile h2

theorem get_hash_data_mem (k m : String) (c : Char)
    (h : c ∈ (get_hash k m).data) : c ∈ b64UrlAlphabet ∧ c ≠ '=' := by
  unfold get_hash at h
  simp only [String.data] at h
  have h2 := mem_of_mem_pyStrip h
  unfold removeChar at h2
  rw [List.mem_filter] at h2
  have hne : c ≠ '=' := by simpa using h2.2
  rcases b64UrlEncode_mem _ c h2.1 with ha | ha
  · exact ⟨ha, hne⟩
  · exact absurd ha hne

/-- C9: `get_hash` is deterministic (equal inputs give equal outputs) and
its output never contains the characters `=`, `+` or `/`. -/
theorem get_hash_deterministic_and_urlsafe (k m k2 m2 : String)
    (hk : k = k2) (hm : m = m2) :
    get_hash k m = get_hash k2 m2 ∧
    (get_hash k m).data.contains '=' = false ∧
    (get_hash k m).data.contains '+' = false ∧
    (get_hash k m).data.contains '/' = false := by
  subst hk
  subst hm
  refine ⟨rfl, ?_, ?_, ?_⟩ <;>
    · rw [← Bool.not_eq_true, List.contains_iff_exists_mem_beq]
      rintro ⟨x, hx, hbeq⟩
      have hxc := get_hash_data_mem k m x hx
      have hxe := eq_of_beq hbeq
      subst hxe
      first
        | exact hxc.2 rfl
        | exact absurd hxc.1 (by decide)

/-- Concrete instance of C9 at key and message fixtures. -/
theorem get_hash_deterministic_and_urlsafe_witness :
    get_hash "key" "message" = get_hash "key" "message" ∧
    (get_hash "key" "message").data.contains '=' = false ∧
    (get_hash "key" "message").data.contains '+' = false ∧
    (get_hash "key" "message").data.contains '/' = false :=
  get_hash_deterministic_and_urlsafe "key" "message" "key" "message" rfl rfl

/-- C2: the signing hook builds the base string
`{METHOD}&{decoded_lowercased_path}&{timestamp}`, signs it with the
application key, signs it with the user key exactly when the context is
not anonymous (empty user signature otherwise), and merges exactly the
five fixed-name parameters `x_a`, `x_c`, `x_b`, `x_d`, `x_t` into the
request's existing query parameters. -/
theorem userCall_signs_request (ctx : D2LUserContext) (now : ℚ) (r : PyRequest) :
    userCall ctx now r =
      { method := r.method,
        url :=
          urlunsplit (urlsplit r.url).scheme (urlsplit r.url).netloc
            (urlsplit r.url).path
            (urlencodeSeq
              (dictUpdate (parse_qs (urlsplit r.url).query.data)
                [("x_a", [ctx.app_id]),
                 ("x_c", [get_hash ctx.app_key
                    (pyUpper r.method ++ "&" ++
                     unquote_plus (pyLower (urlsplit r.url).path) ++ "&" ++
                     get_time_string ctx now)]),
                 ("x_b", [ctx.user_id]),
                 ("x_d", [if ctx.anonymous then "" else
                   get_hash ctx.user_key
                    (pyUpper r.method ++ "&" ++
                     unquote_plus (pyLower (urlsplit r.url).path) ++ "&" ++
                     get_time_string ctx now)]),
                 ("x_t", [get_time_string ctx now])]))
            (urlsplit r.url).fragment } := rfl

/-- C7: the user-context constructor raises a value error exactly when one
of `user_id`/`user_key` is empty and the other is not, or when one of
`host`, `app_id`, `app_key` is empty (the former check first); it raises a
type error exactly when those string checks pass but the signer is not a
`D2LSigner`; and every successfully constructed context satisfies
`(user_id empty) == (user_key empty) == anonymous` with non-empty `host`,
`app_id` and `app_key`. -/
theorem mkUserContext_validation (host uid ukey aid akey : String)
    (enc : Bool) (skew : Int) (sv : SignerVal) :
    exceptIsValueError (mkD2LUserContext host uid ukey aid akey enc skew sv) =
      (((uid == "") != (ukey == "")) || (host == "" || aid == "" || akey == "")) ∧
    exceptIsTypeError (mkD2LUserContext host uid ukey aid akey enc skew sv) =
      (!((uid == "") != (ukey == "")) && !(host == "" || aid == "" || akey == "") &&
        !(isD2LSigner sv)) ∧
    userCtxInvariant (mkD2LUserContext host uid ukey aid akey enc skew sv) = true := by
  cases hu : (uid == "") <;> cases hk : (ukey == "") <;>
    cases hh : (host == "") <;> cases ha : (aid == "") <;> cases hb : (akey == "") <;>
    cases hs : isD2LSigner sv <;>
    simp_all [mkD2LUserContext, exceptIsValueError, exceptIsTypeError, userCtxInvariant]

/-! ## Query strings built by urlencode are never empty -/

theorem encodePair_ne_nil (k v : String) : encodePair k v ≠ [] := by
  simp [encodePair]

theorem joinAmp_cons_ne_nil (x : List Char) (xs : List (List Char)) (hx : x ≠ []) :
    joinAmp (x :: xs) ≠ [] := by
  cases xs with
  | nil => simpa [joinAmp] using hx
  | cons y ys => simp [joinAmp]

theorem urlencodeStr_cons_ne_empty (k v : String) (rest : List (String × String)) :
    urlencodeStr ((k, v) :: rest) ≠ "" := by
  unfold urlencodeStr
  intro h
  have hd := congrArg String.data h
  simp only [List.map_cons] at hd
  exact joinAmp_cons_ne_nil _ _ (encodePair_ne_nil k v) hd

theorem urlunsplit_parts (scheme netloc path query : String)
    (hn : netloc ≠ "") (hs : scheme ≠ "")
    (hp : ¬(path ≠ "" ∧ path.data.take 1 ≠ ['/'])) (hq2 : query ≠ "") :
    urlunsplit scheme netloc path query "" =
      scheme ++ ":" ++ ("//" ++ netloc ++ path) ++ "?" ++ query := by
  simp only [urlunsplit]
  rw [if_neg (by simp : ¬(("" : String) ≠ "")), if_pos hq2, if_pos hs,
    if_pos (Or.inl hn), if_neg hp]

/-- C5: for every non-empty host, the authentication URL has scheme `https`
when `encrypt_request` is true and `http` otherwise, path
`/d2l/auth/api/token`, and a query encoding `x_a` as the app id, `x_b` as
the signature of the client application URL under the app key, and
`x_target` as the client application URL, with a `type` parameter appended
exactly when the connection type is the literal `mobile`. -/
theorem create_url_for_authentication_spec (ac : D2LAppContext)
    (host curl : String) (ct : Option String) (enc : Bool) (hh : host ≠ "") :
    create_url_for_authentication ac host curl ct enc =
      (if enc then "https" else "http") ++ ":" ++
        ("//" ++ host ++ "/d2l/auth/api/token") ++ "?" ++
        urlencodeStr
          ([("x_a", ac.app_id), ("x_b", get_hash ac.app_key curl),
            ("x_target", curl)] ++
            (if ct = some "mobile" then [("type", "mobile")] else [])) := by
  have hq : ∀ ps : List (String × String),
      urlencodeStr ((D2LAppContext.APP_ID, ac.app_id) :: ps) ≠ "" :=
    fun ps => urlencodeStr_cons_ne_empty _ _ _
  simp only [create_url_for_authentication]
  rcases ct with _ | t
  · cases enc <;>
      (rw [urlunsplit_parts _ _ _ _ hh (by decide) (by decide) (hq _)];
       simp [D2LAppContext.APP_ID, D2LAppContext.APP_SIG, D2LAppContext.CALLBACK_URL,
        D2LAppContext.AUTH_API, D2LAppContext.SCHEME_S, D2LAppContext.SCHEME_U])
  · by_cases ht : t = "mobile"
    · subst ht
      simp only [D2LAppContext.VALID_TYPES, List.mem_singleton, eq_self_iff_true,
        ite_true, Option.some.injEq, List.cons_append, List.nil_append]
      cases enc <;>
        (rw [urlunsplit_parts _ _ _ _ hh (by decide) (by decide) (hq _)];
         simp [D2LAppContext.APP_ID, D2LAppContext.APP_SIG, D2LAppContext.CALLBACK_URL,
          D2LAppContext.AUTH_API, D2LAppContext.SCHEME_S, D2LAppContext.SCHEME_U,
          D2LAppContext.TYPE])
    · simp only [D2LAppContext.VALID_TYPES, List.mem_singleton, Option.some.injEq,
        if_neg ht, List.append_nil]
      cases enc <;>
        (rw [urlunsplit_parts _ _ _ _ hh (by decide) (by decide) (hq _)];
         simp [D2LAppContext.APP_ID, D2LAppContext.APP_SIG, D2LAppContext.CALLBACK_URL,
          D2LAppContext.AUTH_API, D2LAppContext.SCHEME_S, D2LAppContext.SCHEME_U])

/-- Concrete instance of C5 at the example from the specification. -/
theorem create_url_for_authentication_spec_witness :
    create_url_for_authentication sampleApp "lms.example.edu"
        "https://app.example.com/cb" none true =
      (if true then "https" else "http") ++ ":" ++
        ("//" ++ "lms.example.edu" ++ "/d2l/auth/api/token") ++ "?" ++
        urlencodeStr
          ([("x_a", sampleApp.app_id),
            ("x_b", get_hash sampleApp.app_key "https://app.example.com/cb"),
            ("x_target", "https://app.example.com/cb")] ++
            (if (none : Option String) = some "mobile" then [("type", "mobile")]
             else [])) :=
  create_url_for_authentication_spec sampleApp "lms.example.edu"
    "https://app.example.com/cb" none true (by decide)

/-- C6: rebuilding a context from its serialized properties on an app
context with the same app id, app key and signer yields a context whose
serialized properties (host, user id, user key, encrypt flag, skew,
anonymous flag) equal the original's; in fact the rebuilt context equals
the original. -/
theorem context_properties_roundtrip (host uid ukey aid akey : String)
    (enc : Bool) (skew : Int) (ctx : D2LUserContext) (ac : D2LAppContext)
    (hmk : mkD2LUserContext host uid ukey aid akey enc skew SignerVal.d2lSigner =
      Except.ok ctx)
    (hai : ac.app_id = ctx.app_id) (hak : ac.app_key = ctx.app_key)
    (hs : ac.signer = ctx.signer) :
    create_user_context ac "" "" false (some (get_context_properties ctx)) =
      Except.ok (some ctx) := by
  unfold mkD2LUserContext at hmk
  by_cases h1 : ((uid == "") != (ukey == "")) = true
  · rw [if_pos h1] at hmk
    exact absurd hmk (by simp)
  · rw [if_neg h1] at hmk
    by_cases h2 : (host == "" || aid == "" || akey == "") = true
    · rw [if_pos h2] at hmk
      exact absurd hmk (by simp)
    · rw [if_neg h2] at hmk
      rw [if_neg (by simp [isD2LSigner])] at hmk
      injection hmk with hctx
      subst hctx
      have hai2 : ac.app_id = aid := by simpa using hai
      have hak2 : ac.app_key = akey := by simpa using hak
      have hs2 : ac.signer = SignerVal.d2lSigner := by simpa using hs
      simp only [get_context_properties, create_user_context]
      unfold mkD2LUserContext
      rw [hai2, hak2, hs2, if_neg h1, if_neg h2,
        if_neg (by simp [isD2LSigner])]
      simp [Except.map]

/-- Concrete instance of the C6 round-trip. -/
theorem context_properties_roundtrip_witness :
    create_user_context sampleApp "" "" false
        (some (get_context_properties sampleCtx)) =
      Except.ok (some sampleCtx) :=
  context_properties_roundtrip "lms.example.edu" "someuser" "userkey"
    "someapp" "appkey" false 0 sampleCtx sampleApp rfl rfl rfl rfl

/-! ## Query parsing never produces blank values -/

theorem utf8DecodeGo_cons_ne_nil (fuel : Nat) (b : Nat) (bs : List Nat) :
    utf8DecodeGo (fuel + 1) (b :: bs) ≠ [] := by
  cases hp : parseUtf8Seq b bs with
  | none => simp [utf8DecodeGo, hp]
  | some pr => simp [utf8DecodeGo, hp]

theorem utf8DecodeBytes_cons_ne_nil (b : Nat) (bs : List Nat) :
    utf8DecodeBytes (b :: bs) ≠ [] := by
  unfold utf8DecodeBytes
  simp only [List.length_cons]
  exact utf8DecodeGo_cons_ne_nil _ b bs

theorem percentRun_empty_bytes (cs r : List Char)
    (h : percentRun cs = ([], r)) : r = cs := by
  unfold percentRun at h
  split at h
  · split at h
    · rcases hpr : percentRun _ with ⟨bs, r0⟩
      rw [hpr] at h
      simp at h
    · simp at h
      exact h.symm
  · simp at h
    exact h.symm

theorem unquoteGo_cons_ne_nil (fuel : Nat) (c : Char) (cs : List Char) :
    unquoteGo (fuel + 1) (c :: cs) ≠ [] := by
  rcases hp : percentRun (c :: cs) with ⟨bs, r⟩
  cases bs with
  | nil =>
      have hr : r = c :: cs := percentRun_empty_bytes _ _ hp
      subst hr
      simp [unquoteGo, hp]
  | cons b bs2 =>
      simp [unquoteGo, hp, List.append_eq_nil, utf8DecodeBytes_cons_ne_nil]

theorem unquotePlusList_ne_nil (cs : List Char) (h : cs ≠ []) :
    unquotePlusList cs ≠ [] := by
  cases cs with
  | nil => exact absurd rfl h
  | cons c rest =>
      unfold unquotePlusList unquoteList
      simp only [List.map_cons, List.length_cons]
      exact unquoteGo_cons_ne_nil _ _ _

theorem stringMk_ne_empty (l : List Char) (h : l ≠ []) : String.mk l ≠ "" := by
  intro he
  exact h (congrArg String.data he)

theorem qslFold_value_ne_empty :
    ∀ (ps : List (List Char)) (k v : String),
      (k, v) ∈ ps.foldr qslStep [] → v ≠ "" := by
  intro ps
  induction ps with
  | nil => intro k v h; simp at h
  | cons p rest ih =>
      intro k v h
      simp only [List.foldr_cons] at h
      unfold qslStep at h
      split at h
      · exact ih k v h
      · split at h
        · exact ih k v h
        · split at h
          · exact ih k v h
          · rcases List.mem_cons.mp h with heq | hmem
            · rcases Prod.mk.injEq .. ▸ heq with ⟨_, hv⟩
              subst hv
              exact stringMk_ne_empty _ (unquotePlusList_ne_nil _ (by assumption))
            · exact ih k v hmem

theorem parse_qsl_value_ne_empty (q : List Char) (k v : String)
    (h : (k, v) ∈ parse_qsl q) : v ≠ "" :=
  qslFold_value_ne_empty _ k v h

theorem qsInsert_preserves :
    ∀ (d : List (String × List String)) (k v : String),
      dictValsOK d → v ≠ "" → dictValsOK (qsInsert d k v) := by
  intro d
  induction d with
  | nil =>
      intro k v _ hv k2 vs2 hmem
      simp only [qsInsert, List.mem_singleton] at hmem
      injection hmem with hk hvs
      subst hvs
      exact ⟨by simp, by simpa using hv⟩
  | cons kv rest ih =>
      intro k v hd hv k2 vs2 hmem
      rcases kv with ⟨k1, vs1⟩
      unfold qsInsert at hmem
      split at hmem
      · rcases List.mem_cons.mp hmem with heq | hmem2
        · injection heq with hk hvs
          subst hvs
          have h1 := hd k1 vs1 (List.mem_cons_self _ _)
          refine ⟨by simp, ?_⟩
          intro x hx
          rcases List.mem_append.mp hx with hx1 | hx2
          · exact h1.2 x hx1
          · rw [List.mem_singleton.mp hx2]
            exact hv
        · exact hd k2 vs2 (List.mem_cons_of_mem _ hmem2)
      · rcases List.mem_cons.mp hmem with heq | hmem2
        · injection heq with hk hvs
          subst hvs
          exact hd k1 vs2 (List.mem_cons_self _ _)
        · exact ih k v (fun k3 vs3 hm => hd k3 vs3 (List.mem_cons_of_mem _ hm)) hv
            k2 vs2 hmem2

theorem foldl_qsInsert_OK :
    ∀ (pairs : List (String × String)) (d : List (String × List String)),
      dictValsOK d → (∀ kv ∈ pairs, kv.2 ≠ "") →
      dictValsOK (pairs.foldl (fun d2 kv => qsInsert d2 kv.1 kv.2) d) := by
  intro pairs
  induction pairs with
  | nil => intro d hd _; simpa using hd
  | cons kv rest ih =>
      intro d hd hp
      simp only [List.foldl_cons]
      exact ih (qsInsert d kv.1 kv.2)
        (qsInsert_preserves d kv.1 kv.2 hd (hp kv (List.mem_cons_self _ _)))
        (fun kv2 hm => hp kv2 (List.mem_cons_of_mem _ hm))

theorem parse_qs_valsOK (q : List Char) : dictValsOK (parse_qs q) := by
  unfold parse_qs
  exact foldl_qsInsert_OK (parse_qsl q) [] (by intro k vs h; simp at h)
    (fun kv hm => parse_qsl_value_ne_empty q kv.1 kv.2 hm)

theorem dictFind_mem (d : List (String × List String)) (k : String)
    (vs : List String) (h : dictFind d k = some vs) :
    ∃ k2, (k2, vs) ∈ d := by
  unfold dictFind at h
  rcases Option.map_eq_some'.mp h with ⟨kv, hfind, hsnd⟩
  refine ⟨kv.1, ?_⟩
  have hm := List.mem_of_find?_eq_some hfind
  subst hsnd
  simpa using hm

theorem pyDictGet_eq (d : List (String × List String)) (k : String) :
    pyDictGet d k =
      (match dictFind d k with
       | some vs => Except.ok vs
       | none => Except.error (PyError.keyError k)) := by
  unfold pyDictGet dictFind
  cases h : List.find? (fun kv => kv.1 == k) d <;> simp [h]

/-- C4 (amended): without saved properties, `create_user_context` fails with
a value error exactly as claimed when `result_uri` or `host` is empty; but
when the expected `x_a` or `x_b` parameter is absent from the result URI's
parsed query it fails with an uncaught key error (a lookup failure), not a
value error. -/
theorem create_user_context_error_modes (ac : D2LAppContext) (ru host : String)
    (e : Bool) (vs : List String) :
    ((ru = "" ∨ host = "") →
      create_user_context ac ru host e none =
        Except.error (PyError.valueError
          "result_uri and host must have values when building new contexts.")) ∧
    (ru ≠ "" → host ≠ "" →
      dictFind (parse_qs (urlsplit ru).query.data) "x_a" = none →
      create_user_context ac ru host e none =
        Except.error (PyError.keyError "x_a")) ∧
    (ru ≠ "" → host ≠ "" →
      dictFind (parse_qs (urlsplit ru).query.data) "x_a" = some vs →
      dictFind (parse_qs (urlsplit ru).query.data) "x_b" = none →
      create_user_context ac ru host e none =
        Except.error (PyError.keyError "x_b")) := by
  refine ⟨?_, ?_, ?_⟩
  · intro h
    have hb : (ru == "" || host == "") = true := by
      rcases h with h | h <;> simp [h]
    simp [create_user_context, hb]
  · intro h1 h2 hfa
    have hb : (ru == "" || host == "") = false := by simp [h1, h2]
    simp only [create_user_context, hb, pyDictGet_eq, hfa,
      D2LAppContext.CALLBACK_USER_ID, Bool.false_eq_true, if_false]
    rfl
  · intro h1 h2 hfa hfb
    have hb : (ru == "" || host == "") = false := by simp [h1, h2]
    obtain ⟨k0, hmem⟩ := dictFind_mem _ _ _ hfa
    obtain ⟨hne, _⟩ := parse_qs_valsOK _ k0 vs hmem
    rcases vs with _ | ⟨v0, vrest⟩
    · exact absurd rfl hne
    · simp only [create_user_context, hb, pyDictGet_eq, hfa, hfb, pyListHead,
        D2LAppContext.CALLBACK_USER_ID, D2LAppContext.CALLBACK_USER_KEY,
        Bool.false_eq_true, if_false]
      rfl

/-- Concrete part of C4: a witness instance for the amended behaviors at
empty arguments and at a query missing `x_a`. -/
theorem create_user_context_error_modes_witness :
    create_user_context sampleApp "" "" false none =
      Except.error (PyError.valueError
        "result_uri and host must have values when building new contexts.") ∧
    create_user_context sampleApp "http://app.example.com/cb?foo=1"
        "lms.example.edu" false none =
      Except.error (PyError.keyError "x_a") :=
  ⟨(create_user_context_error_modes sampleApp "" "" false []).1 (Or.inl rfl),
   (create_user_context_error_modes sampleApp "http://app.example.com/cb?foo=1"
      "lms.example.edu" false []).2.1 (by decide) (by decide) (by rfl)⟩

/-- C4 counterexample: with `x_a` absent from the query string, the call
raises a key error, not the claimed value error. -/
theorem create_user_context_missing_param_not_value_error :
    create_user_context sampleApp "http://app.example.com/cb?foo=1"
        "lms.example.edu" false none =
      Except.error (PyError.keyError "x_a") ∧
    exceptIsValueError
        (create_user_context sampleApp "http://app.example.com/cb?foo=1"
          "lms.example.edu" false none) = false :=
  ⟨rfl, rfl⟩

theorem create_user_context_modeB_eval (ac : D2LAppContext) (ru host : String)
    (e : Bool) (va vb : String) (vra vrb : List String)
    (hb : (ru == "" || host == "") = false)
    (hfa : dictFind (parse_qs (urlsplit ru).query.data)
      D2LAppContext.CALLBACK_USER_ID = some (va :: vra))
    (hfb : dictFind (parse_qs (urlsplit ru).query.data)
      D2LAppContext.CALLBACK_USER_KEY = some (vb :: vrb)) :
    create_user_context ac ru host e none =
      (if !(va == "") && !(vb == "") then
        Except.map some
          (mkD2LUserContext host va vb ac.app_id ac.app_key e 0 ac.signer)
       else pure none) := by
  simp only [create_user_context, hb, pyDictGet_eq, hfa, hfb,
    Bool.false_eq_true, if_false]
  rfl

/-- C10 (amended): query parsing drops blank-valued parameters, so no
parsed value is ever the empty string and the guard that would return
`None` without error is unreachable: mode (b) of `create_user_context`
never returns an ok `None`; for a blank-valued `x_a` or `x_b` the
subscription raises a key error instead. -/
theorem create_user_context_never_ok_none (ac : D2LAppContext)
    (ru host : String) (e : Bool) (q : List Char) (k : String)
    (vs : List String) :
    ((k, vs) ∈ parse_qs q → "" ∉ vs) ∧
    create_user_context ac ru host e none ≠ Except.ok none := by
  constructor
  · intro hmem hblank
    exact (parse_qs_valsOK q k vs hmem).2 "" hblank rfl
  · cases hb : (ru == "" || host == "") with
    | true => simp [create_user_context, hb]
    | false =>
        rcases hfa : dictFind (parse_qs (urlsplit ru).query.data)
            D2LAppContext.CALLBACK_USER_ID with _ | vsa
        · simp only [create_user_context, hb, pyDictGet_eq, hfa,
            Bool.false_eq_true, if_false]
          intro hcontra
          exact Except.noConfusion hcontra
        · obtain ⟨ka, hmema⟩ := dictFind_mem _ _ _ hfa
          obtain ⟨hnea, hba⟩ := parse_qs_valsOK _ ka vsa hmema
          rcases vsa with _ | ⟨va, vra⟩
          · exact absurd rfl hnea
          rcases hfb : dictFind (parse_qs (urlsplit ru).query.data)
              D2LAppContext.CALLBACK_USER_KEY with _ | vsb
          · simp only [create_user_context, hb, pyDictGet_eq, hfa, hfb,
              pyListHead, Bool.false_eq_true, if_false]
            intro hcontra
            exact Except.noConfusion hcontra
          · obtain ⟨kb, hmemb⟩ := dictFind_mem _ _ _ hfb
            obtain ⟨hneb, hbb⟩ := parse_qs_valsOK _ kb vsb hmemb
            rcases vsb with _ | ⟨vb, vrb⟩
            · exact absurd rfl hneb
            have hva : (va == "") = false :=
              beq_eq_false_iff_ne.mpr (hba va (List.mem_cons_self _ _))
            have hvb : (vb == "") = false :=
              beq_eq_false_iff_ne.mpr (hbb vb (List.mem_cons_self _ _))
            rw [create_user_context_modeB_eval ac ru host e va vb vra vrb hb
              hfa hfb]
            rw [if_pos (by simp [hva, hvb])]
            cases hmk : mkD2LUserContext host va vb ac.app_id ac.app_key e 0
                ac.signer with
            | error er => simp [Except.map]
            | ok ctx => simp [Except.map]

/-- C10 counterexample: with `x_a` present but blank in the query string,
the call raises a key error; it does not return `None` without error. -/
theorem create_user_context_blank_param_raises :
    create_user_context sampleApp "http://app.example.com/cb?x_a=&x_b=k"
        "lms.example.edu" false none =
      Except.error (PyError.keyError "x_a") ∧
    exceptIsOkNone
        (create_user_context sampleApp "http://app.example.com/cb?x_a=&x_b=k"
          "lms.example.edu" false none) = false :=
  ⟨rfl, rfl⟩

end D2LValence
